import Mathlib

/-!
Shallow embedding of the default-CatalogSource reconciliation core of
operator-marketplace, from:
  src/pkg/controller/catalogsource/catalogsource_controller.go
  src/cmd/manager/main.go

The specification type of a CatalogSource (`olm.CatalogSource.Spec`) is opaque
to the controller: it is only compared via `defaults.AreCatsrcSpecsEqual`.  We
model it as a type parameter `σ` with decidable equality.
-/

namespace Marketplace

/-- Embedding of `olm.CatalogSource`: the fields the controller reads are the
object name (`GetName`), the deletion timestamp (compared against nil) and the
spec (compared structurally). -/
structure CatalogSource (σ : Type) where
  name : String
  deletionTimestamp : Option Nat
  spec : σ
deriving DecidableEq, Repr

/-- Go's zero value of `olm.CatalogSource`: empty name, nil deletion
timestamp, zero-valued spec.  This is what a Go map lookup yields for an
absent key in `defaultCatalogsources[request.Name]`. -/
def zeroCatalogSource (zeroSpec : σ) : CatalogSource σ :=
  { name := "", deletionTimestamp := none, spec := zeroSpec }

/-- The Desired-State Registry: the `defaultCatalogsources` map returned by
`defaults.GetGlobalDefinitions()`, keyed by name. -/
abbrev Registry (σ : Type) := List (String × CatalogSource σ)

/-- Go map lookup in the registry (first binding wins; keys are unique in the
real map). -/
def lookupDef (reg : Registry σ) (n : String) : Option (CatalogSource σ) :=
  match reg with
  | [] => none
  | (k, v) :: rest => if k = n then some v else lookupDef rest n

/-- Modelled from the spec: `defaults.AreCatsrcSpecsEqual` lives in
`pkg/defaults`, which is not under src/; the spec says the observed
specification is compared to the desired specification *structurally*, so it
is modelled as decidable structural equality on the opaque spec type. -/
def AreCatsrcSpecsEqual [DecidableEq σ] (a b : σ) : Bool :=
  a = b

/-- Outcome of `r.client.Get` for the requested namespaced name: not-found
(`errors.IsNotFound`), some other error (carrying its message), or the fetched
object. -/
inductive GetResult (σ : Type) where
  | notFound
  | fetchFailed (msg : String)
  | found (inst : CatalogSource σ)
deriving DecidableEq, Repr

/-- `reconcile.Request`: a namespaced name. -/
structure Request where
  namespace_ : String
  name : String
deriving DecidableEq, Repr

/-- `reconcile.Result`: whether to requeue and after how many seconds. -/
structure Result where
  requeue : Bool
  requeueAfterSeconds : Nat
deriving DecidableEq, Repr

/-- A mutation command issued against the object store
(`client.Create` / `client.Delete` / `client.Update`).  The controller never
issues `update`; the constructor exists so "no in-place update" is a statement
about the action trace. -/
inductive Action (σ : Type) where
  | create (c : CatalogSource σ)
  | delete (c : CatalogSource σ)
  | update (c : CatalogSource σ)
deriving DecidableEq, Repr

def Action.isCreate : Action σ → Bool
  | .create _ => true
  | _ => false

def Action.isDelete : Action σ → Bool
  | .delete _ => true
  | _ => false

def Action.isUpdate : Action σ → Bool
  | .update _ => true
  | _ => false

/-- What one invocation of `Reconcile` did: the store mutations it issued, in
order, the `reconcile.Result` it returned, and the error it returned
(`none` = nil). -/
structure Outcome (σ : Type) where
  actions : List (Action σ)
  result : Result
  returnedError : Option String
deriving DecidableEq, Repr

/-- `createNewCatsrcInstance(client, catsrc)`: issues `client.Create(&catsrc)`;
on failure logs a warning and returns the error, on success returns nil.
`createFails` stands for whether the store rejects the create. -/
def createNewCatsrcInstance (createFails : Bool) (catsrc : CatalogSource σ) :
    List (Action σ) × Option String :=
  ([Action.create catsrc], if createFails then some "create failed" else none)

/-- `ReconcileCatalogSource.Reconcile`, embedded line by line:

* `defaultCatsrcDef := defaultCatalogsources[request.Name]` — Go map lookup,
  zero value when absent;
* `r.client.Get(...)` — outcome passed in as `fetch`;
* not-found branch: if `!operatorhub.GetSingleton().Get()[defaultCatsrcDef.Name]`
  then `createNewCatsrcInstance` (its returned error is discarded); return
  empty result, nil error;
* other fetch error: return `{Requeue: true, RequeueAfter: 5s}` and the error;
* non-nil deletion timestamp: return `{Requeue: true, RequeueAfter: 5s}`, nil;
* specs not equal per `AreCatsrcSpecsEqual`: `r.client.Delete(instance)` with
  the error only logged; return `{Requeue: true, RequeueAfter: 5s}`, nil;
* otherwise: empty result, nil error.

`hub` is the `operatorhub` singleton's flag map (Go map to bool, absent key
reads false); `createFails` / `deleteFails` say whether the corresponding
store call would fail. -/
def Reconcile [DecidableEq σ] (reg : Registry σ) (zeroSpec : σ)
    (hub : String → Bool) (fetch : GetResult σ)
    (createFails deleteFails : Bool) (request : Request) : Outcome σ :=
  let defaultCatsrcDef := (lookupDef reg request.name).getD (zeroCatalogSource zeroSpec)
  match fetch with
  | GetResult.notFound =>
      if ! hub defaultCatsrcDef.name then
        let c := createNewCatsrcInstance createFails defaultCatsrcDef
        { actions := c.1, result := ⟨false, 0⟩, returnedError := none }
      else
        { actions := [], result := ⟨false, 0⟩, returnedError := none }
  | GetResult.fetchFailed msg =>
      { actions := [], result := ⟨true, 5⟩, returnedError := some msg }
  | GetResult.found inst =>
      if inst.deletionTimestamp ≠ none then
        { actions := [], result := ⟨true, 5⟩, returnedError := none }
      else if ! AreCatsrcSpecsEqual defaultCatsrcDef.spec inst.spec then
        { actions := [Action.delete inst]
          result := ⟨true, 5⟩
          returnedError := none }
      else
        { actions := [], result := ⟨false, 0⟩, returnedError := none }

/-- A store, per name, as the controller observes it through `client.Get`. -/
abbrev Store (σ : Type) := String → GetResult σ

/-- Effect of one issued mutation on the store (the external collaborator's
single-object atomic semantics from the spec's §6 interface). -/
def applyAction [DecidableEq σ] (store : Store σ) : Action σ → Store σ
  | Action.create c => fun n => if n = c.name then GetResult.found c else store n
  | Action.update c => fun n => if n = c.name then GetResult.found c else store n
  | Action.delete c => fun n => if n = c.name then GetResult.notFound else store n

def applyActions [DecidableEq σ] (store : Store σ) (as : List (Action σ)) : Store σ :=
  as.foldl applyAction store

/-- Reconcile driven by a store: the fetch result is the store's answer for
the requested name. -/
def ReconcileOn [DecidableEq σ] (reg : Registry σ) (zeroSpec : σ)
    (hub : String → Bool) (store : Store σ)
    (createFails deleteFails : Bool) (request : Request) : Outcome σ :=
  Reconcile reg zeroSpec hub (store request.name) createFails deleteFails request

/-! ## Event filter (`predicate.Funcs` built in `add`) -/

/-- A lifecycle event from the watch stream, as seen by the predicate: create
events carry the object meta, update events carry `MetaOld` and `MetaNew`,
delete events carry the meta and the `DeleteStateUnknown` flag, generic events
carry the meta. -/
inductive Ev (σ : Type) where
  | createEvent (meta : CatalogSource σ)
  | updateEvent (metaOld metaNew : CatalogSource σ)
  | deleteEvent (meta : CatalogSource σ) (deleteStateUnknown : Bool)
  | genericEvent (meta : CatalogSource σ)
deriving DecidableEq, Repr

/-- The `predicate.Funcs` literal from `add`:
`CreateFunc` returns false; `UpdateFunc` returns true iff
`e.MetaOld.GetName()` is a key of `defaultCatalogsources`; `DeleteFunc`
returns false when the name is not a key or `DeleteStateUnknown` is set;
`GenericFunc` returns true iff `e.Meta.GetName()` is a key. -/
def eventFilter (reg : Registry σ) : Ev σ → Bool
  | Ev.createEvent _ => false
  | Ev.updateEvent metaOld _ =>
      if (lookupDef reg metaOld.name).isSome then true else false
  | Ev.deleteEvent m deleteStateUnknown =>
      if (lookupDef reg m.name).isSome then
        if deleteStateUnknown then false else true
      else false
  | Ev.genericEvent m =>
      if (lookupDef reg m.name).isSome then true else false

/-! ## Leader-election callbacks (`cmd/manager/main.go`) -/

/-- Statements a leader-election callback body in `main` could execute, at the
granularity the temporal claim needs: log, cancel `leaderCtx`, stop the
manager / control-loop driver. -/
inductive CallbackStep where
  | logWarnLeaderLost
  | cancelLeaderContext
  | stopManager
deriving DecidableEq, Repr

/-- Body of the `OnStoppedLeading` callback in `main`: it only logs
`"leader election lost for %s identity"` and returns. -/
def onStoppedLeadingBody : List CallbackStep :=
  [CallbackStep.logWarnLeaderLost]

/-- The stop channel that `run` hands to `mgr.Start`. -/
inductive StopChannel where
  | signalsContext
  | leaderContext
deriving DecidableEq, Repr

/-- In `run`, `mgr.Start(stopCh)` is called with `stopCh := ctx.Done()` of the
signals context; the `leaderCtx` passed to `run(leaderCtx)` is never consulted. -/
def mgrStartStopChannel : StopChannel :=
  StopChannel.signalsContext

/-! ## Claim theorems -/

/-- C1: for every reconciliation request whose fetched object exists, has no
deletion timestamp, and whose spec is not structurally equal to the desired
spec in the registry, `Reconcile` issues exactly one delete of the observed
object (no create, no in-place update) and returns
`{Requeue: true, RequeueAfter: 5s}` with a nil error, regardless of whether
the delete call would succeed or fail. -/
theorem drift_deletes_and_requeues {σ : Type} [DecidableEq σ]
    (reg : Registry σ) (zeroSpec : σ) (hub : String → Bool)
    (createFails deleteFails : Bool) (request : Request)
    (d inst : CatalogSource σ)
    (hreg : lookupDef reg request.name = some d)
    (hts : inst.deletionTimestamp = none)
    (hne : d.spec ≠ inst.spec) :
    Reconcile reg zeroSpec hub (GetResult.found inst) createFails deleteFails request
      = { actions := [Action.delete inst]
          result := ⟨true, 5⟩
          returnedError := none } := by
  simp [Reconcile, hreg, hts, AreCatsrcSpecsEqual, hne]

theorem drift_deletes_and_requeues_witness :
    lookupDef [("a", (⟨"a", none, 7⟩ : CatalogSource Nat))] "a" = some ⟨"a", none, 7⟩ ∧
    (⟨"a", none, 3⟩ : CatalogSource Nat).deletionTimestamp = none ∧
    (7 : Nat) ≠ 3 ∧
    Reconcile [("a", (⟨"a", none, 7⟩ : CatalogSource Nat))] 0 (fun _ => false)
        (GetResult.found ⟨"a", none, 3⟩) false true ⟨"ns", "a"⟩
      = { actions := [Action.delete ⟨"a", none, 3⟩]
          result := ⟨true, 5⟩
          returnedError := none } :=
  ⟨by decide, by decide, by decide,
    drift_deletes_and_requeues [("a", ⟨"a", none, 7⟩)] 0 (fun _ => false)
      false true ⟨"ns", "a"⟩ ⟨"a", none, 7⟩ ⟨"a", none, 3⟩
      (by decide) (by decide) (by decide)⟩

/-- C2: when the fetch returns not-found and the OperatorHub singleton flag
for this default's name is false, `Reconcile` issues a create of the desired
definition and, whether or not that create fails, returns an empty result and
a nil error. -/
theorem notFound_creates_and_returns_clean {σ : Type} [DecidableEq σ]
    (reg : Registry σ) (zeroSpec : σ) (hub : String → Bool)
    (createFails deleteFails : Bool) (request : Request)
    (d : CatalogSource σ)
    (hreg : lookupDef reg request.name = some d)
    (hhub : hub d.name = false) :
    Reconcile reg zeroSpec hub GetResult.notFound createFails deleteFails request
      = { actions := [Action.create d]
          result := ⟨false, 0⟩
          returnedError := none } := by
  simp [Reconcile, hreg, hhub, createNewCatsrcInstance]

theorem notFound_creates_and_returns_clean_witness :
    lookupDef [("a", (⟨"a", none, 7⟩ : CatalogSource Nat))] "a" = some ⟨"a", none, 7⟩ ∧
    (fun _ : String => false) "a" = false ∧
    Reconcile [("a", (⟨"a", none, 7⟩ : CatalogSource Nat))] 0 (fun _ => false)
        GetResult.notFound true false ⟨"ns", "a"⟩
      = { actions := [Action.create ⟨"a", none, 7⟩]
          result := ⟨false, 0⟩
          returnedError := none } :=
  ⟨by decide, by decide,
    notFound_creates_and_returns_clean [("a", ⟨"a", none, 7⟩)] 0 (fun _ => false)
      true false ⟨"ns", "a"⟩ ⟨"a", none, 7⟩ (by decide) (by decide)⟩

/-- C3: a fetched object with a non-nil deletion timestamp makes `Reconcile`
issue no store mutation at all and return `{Requeue: true, RequeueAfter: 5s}`
with a nil error — never the empty terminal result. -/
theorem pendingDeletion_requeues_without_mutation {σ : Type} [DecidableEq σ]
    (reg : Registry σ) (zeroSpec : σ) (hub : String → Bool)
    (createFails deleteFails : Bool) (request : Request)
    (inst : CatalogSource σ)
    (hts : inst.deletionTimestamp ≠ none) :
    Reconcile reg zeroSpec hub (GetResult.found inst) createFails deleteFails request
      = { actions := [], result := ⟨true, 5⟩, returnedError := none } := by
  simp [Reconcile, hts]

theorem pendingDeletion_requeues_without_mutation_witness :
    ((⟨"a", some 12, 7⟩ : CatalogSource Nat).deletionTimestamp ≠ none) ∧
    Reconcile ([] : Registry Nat) 0 (fun _ => false)
        (GetResult.found ⟨"a", some 12, 7⟩) false false ⟨"ns", "a"⟩
      = { actions := [], result := ⟨true, 5⟩, returnedError := none } :=
  ⟨by decide,
    pendingDeletion_requeues_without_mutation [] 0 (fun _ => false)
      false false ⟨"ns", "a"⟩ ⟨"a", some 12, 7⟩ (by decide)⟩

/-- C6: `Reconcile` returns a non-nil error iff the fetch failed with an
error other than not-found; in that case it also requeues after 5 seconds;
and the returned error never depends on whether the corrective create or
delete call fails. -/
theorem error_iff_fetch_failed {σ : Type} [DecidableEq σ]
    (reg : Registry σ) (zeroSpec : σ) (hub : String → Bool)
    (fetch : GetResult σ) (createFails deleteFails : Bool) (request : Request) :
    ((Reconcile reg zeroSpec hub fetch createFails deleteFails request).returnedError ≠ none
       ↔ ∃ msg, fetch = GetResult.fetchFailed msg) ∧
    (∀ msg, fetch = GetResult.fetchFailed msg →
       (Reconcile reg zeroSpec hub fetch createFails deleteFails request).result = ⟨true, 5⟩) ∧
    (∀ cf df,
       (Reconcile reg zeroSpec hub fetch cf df request).returnedError
         = (Reconcile reg zeroSpec hub fetch createFails deleteFails request).returnedError) := by
  refine ⟨?_, ?_, ?_⟩
  · cases fetch with
    | notFound =>
        simp only [Reconcile]
        split <;> simp
    | fetchFailed msg => simp [Reconcile]
    | found inst =>
        simp only [Reconcile]
        split
        · simp
        · split <;> simp
  · rintro msg rfl
    simp [Reconcile]
  · intro cf df
    cases fetch with
    | notFound =>
        simp only [Reconcile]
        split <;> simp [createNewCatsrcInstance]
    | fetchFailed msg => simp [Reconcile]
    | found inst => simp only [Reconcile]

theorem error_iff_fetch_failed_witness :
    ((Reconcile ([("a", ⟨"a", none, 7⟩)] : Registry Nat) 0 (fun _ => false)
        (GetResult.fetchFailed "boom") false false ⟨"ns", "a"⟩).returnedError ≠ none
       ↔ ∃ msg, GetResult.fetchFailed msg = GetResult.fetchFailed (σ := Nat) "boom") ∧
    (Reconcile ([("a", ⟨"a", none, 7⟩)] : Registry Nat) 0 (fun _ => false)
        (GetResult.fetchFailed "boom") false false ⟨"ns", "a"⟩).result = ⟨true, 5⟩ :=
  ⟨by
    have h := (error_iff_fetch_failed ([("a", ⟨"a", none, 7⟩)] : Registry Nat) 0
      (fun _ => false) (GetResult.fetchFailed "boom") false false ⟨"ns", "a"⟩).1
    simpa using h,
   (error_iff_fetch_failed ([("a", ⟨"a", none, 7⟩)] : Registry Nat) 0
      (fun _ => false) (GetResult.fetchFailed "boom") false false ⟨"ns", "a"⟩).2.1
     "boom" rfl⟩

/-- C7: when the fetched object exists, has no deletion timestamp, and its
spec equals the desired spec, `Reconcile` issues no store mutation and
returns an empty result with a nil error; and since no mutation was issued,
an immediate second invocation against the resulting store again issues no
mutation (idempotence). -/
theorem matching_spec_is_noop_and_idempotent {σ : Type} [DecidableEq σ]
    (reg : Registry σ) (zeroSpec : σ) (hub : String → Bool)
    (store : Store σ) (createFails deleteFails : Bool) (request : Request)
    (d inst : CatalogSource σ)
    (hstore : store request.name = GetResult.found inst)
    (hreg : lookupDef reg request.name = some d)
    (hts : inst.deletionTimestamp = none)
    (heq : d.spec = inst.spec) :
    ReconcileOn reg zeroSpec hub store createFails deleteFails request
      = { actions := [], result := ⟨false, 0⟩, returnedError := none } ∧
    ReconcileOn reg zeroSpec hub
        (applyActions store
          (ReconcileOn reg zeroSpec hub store createFails deleteFails request).actions)
        createFails deleteFails request
      = { actions := [], result := ⟨false, 0⟩, returnedError := none } := by
  have h1 : ReconcileOn reg zeroSpec hub store createFails deleteFails request
      = { actions := [], result := ⟨false, 0⟩, returnedError := none } := by
    simp [ReconcileOn, Reconcile, hstore, hreg, hts, AreCatsrcSpecsEqual, heq]
  refine ⟨h1, ?_⟩
  rw [h1]
  simpa [applyActions] using h1

theorem matching_spec_is_noop_and_idempotent_witness :
    (fun _ : String => GetResult.found (⟨"a", none, 7⟩ : CatalogSource Nat)) "a"
      = GetResult.found ⟨"a", none, 7⟩ ∧
    lookupDef [("a", (⟨"a", none, 7⟩ : CatalogSource Nat))] "a" = some ⟨"a", none, 7⟩ ∧
    ReconcileOn [("a", (⟨"a", none, 7⟩ : CatalogSource Nat))] 0 (fun _ => false)
        (fun _ => GetResult.found ⟨"a", none, 7⟩) false false ⟨"ns", "a"⟩
      = { actions := [], result := ⟨false, 0⟩, returnedError := none } :=
  ⟨rfl, by decide,
    (matching_spec_is_noop_and_idempotent [("a", ⟨"a", none, 7⟩)] 0 (fun _ => false)
      (fun _ => GetResult.found ⟨"a", none, 7⟩) false false ⟨"ns", "a"⟩
      ⟨"a", none, 7⟩ ⟨"a", none, 7⟩ rfl (by decide) rfl rfl).1⟩

/-- C9: one invocation of `Reconcile` performs at most one store mutation for
every possible fetch outcome: at most one create, at most one delete, never
an update, and never both a create and a delete. -/
theorem at_most_one_mutation {σ : Type} [DecidableEq σ]
    (reg : Registry σ) (zeroSpec : σ) (hub : String → Bool)
    (fetch : GetResult σ) (createFails deleteFails : Bool) (request : Request) :
    ((Reconcile reg zeroSpec hub fetch createFails deleteFails request).actions.countP
        (fun a => a.isCreate) ≤ 1) ∧
    ((Reconcile reg zeroSpec hub fetch createFails deleteFails request).actions.countP
        (fun a => a.isDelete) ≤ 1) ∧
    (∀ a ∈ (Reconcile reg zeroSpec hub fetch createFails deleteFails request).actions,
        a.isUpdate = false) ∧
    ¬ ((∃ a ∈ (Reconcile reg zeroSpec hub fetch createFails deleteFails request).actions,
          a.isCreate = true) ∧
       (∃ a ∈ (Reconcile reg zeroSpec hub fetch createFails deleteFails request).actions,
          a.isDelete = true)) := by
  have hcases :
      (Reconcile reg zeroSpec hub fetch createFails deleteFails request).actions = [] ∨
      (∃ c, (Reconcile reg zeroSpec hub fetch createFails deleteFails request).actions
              = [Action.create c]) ∨
      (∃ c, (Reconcile reg zeroSpec hub fetch createFails deleteFails request).actions
              = [Action.delete c]) := by
    cases fetch with
    | notFound =>
        simp only [Reconcile]
        split
        · exact Or.inr (Or.inl ⟨_, rfl⟩)
        · exact Or.inl rfl
    | fetchFailed msg => exact Or.inl rfl
    | found inst =>
        simp only [Reconcile]
        split
        · exact Or.inl rfl
        · split
          · exact Or.inr (Or.inr ⟨_, rfl⟩)
          · exact Or.inl rfl
  rcases hcases with h | ⟨c, h⟩ | ⟨c, h⟩ <;>
    simp [h, Action.isCreate, Action.isDelete, Action.isUpdate]

theorem at_most_one_mutation_witness :
    ((Reconcile ([] : Registry Nat) 0 (fun _ => false) GetResult.notFound
        false false ⟨"ns", "a"⟩).actions.countP (fun a => a.isCreate) ≤ 1) ∧
    ((Reconcile ([] : Registry Nat) 0 (fun _ => false) GetResult.notFound
        false false ⟨"ns", "a"⟩).actions.countP (fun a => a.isDelete) ≤ 1) :=
  ⟨(at_most_one_mutation [] 0 (fun _ => false) GetResult.notFound
      false false ⟨"ns", "a"⟩).1,
   (at_most_one_mutation [] 0 (fun _ => false) GetResult.notFound
      false false ⟨"ns", "a"⟩).2.1⟩

/-- C4: the event filter returns false for every create event, for every
delete event with `DeleteStateUnknown` set, and for every update, delete or
generic event whose carried resource name is not a key of the
default-catalogsources registry (for update events the carried name is
`MetaOld.GetName()`, the one the filter consults). -/
theorem filter_blocks_creates_unknown_deletes_and_foreign_names {σ : Type}
    (reg : Registry σ) :
    (∀ m : CatalogSource σ, eventFilter reg (Ev.createEvent m) = false) ∧
    (∀ m : CatalogSource σ, ∀ u : Bool, u = true →
        eventFilter reg (Ev.deleteEvent m u) = false) ∧
    (∀ mo mn : CatalogSource σ, lookupDef reg mo.name = none →
        eventFilter reg (Ev.updateEvent mo mn) = false) ∧
    (∀ m : CatalogSource σ, ∀ u : Bool, lookupDef reg m.name = none →
        eventFilter reg (Ev.deleteEvent m u) = false) ∧
    (∀ m : CatalogSource σ, lookupDef reg m.name = none →
        eventFilter reg (Ev.genericEvent m) = false) := by
  refine ⟨fun m => rfl, ?_, ?_, ?_, ?_⟩
  · rintro m u rfl
    simp only [eventFilter]
    split <;> rfl
  · intro mo mn h
    simp [eventFilter, h]
  · intro m u h
    simp [eventFilter, h]
  · intro m h
    simp [eventFilter, h]

theorem filter_blocks_witness :
    eventFilter [("a", (⟨"a", none, 7⟩ : CatalogSource Nat))]
        (Ev.createEvent ⟨"a", none, 7⟩) = false ∧
    eventFilter [("a", (⟨"a", none, 7⟩ : CatalogSource Nat))]
        (Ev.deleteEvent ⟨"a", none, 3⟩ true) = false ∧
    eventFilter [("a", (⟨"a", none, 7⟩ : CatalogSource Nat))]
        (Ev.updateEvent ⟨"b", none, 3⟩ ⟨"b", none, 4⟩) = false ∧
    eventFilter [("a", (⟨"a", none, 7⟩ : CatalogSource Nat))]
        (Ev.deleteEvent ⟨"b", none, 3⟩ false) = false ∧
    eventFilter [("a", (⟨"a", none, 7⟩ : CatalogSource Nat))]
        (Ev.genericEvent ⟨"b", none, 3⟩) = false :=
  ⟨(filter_blocks_creates_unknown_deletes_and_foreign_names
      [("a", ⟨"a", none, 7⟩)]).1 ⟨"a", none, 7⟩,
   (filter_blocks_creates_unknown_deletes_and_foreign_names
      [("a", ⟨"a", none, 7⟩)]).2.1 ⟨"a", none, 3⟩ true rfl,
   (filter_blocks_creates_unknown_deletes_and_foreign_names
      [("a", ⟨"a", none, 7⟩)]).2.2.1 ⟨"b", none, 3⟩ ⟨"b", none, 4⟩ (by decide),
   (filter_blocks_creates_unknown_deletes_and_foreign_names
      [("a", ⟨"a", none, 7⟩)]).2.2.2.1 ⟨"b", none, 3⟩ false (by decide),
   (filter_blocks_creates_unknown_deletes_and_foreign_names
      [("a", ⟨"a", none, 7⟩)]).2.2.2.2 ⟨"b", none, 3⟩ (by decide)⟩

/-- C10: for update events the filter's decision depends only on the old
object's name (`MetaOld.GetName()`): it is invariant under changing the new
object, and it is true exactly when the old name is a key of the registry. -/
theorem update_filter_depends_only_on_old_name {σ : Type}
    (reg : Registry σ) (metaOld metaNew metaNew2 : CatalogSource σ) :
    eventFilter reg (Ev.updateEvent metaOld metaNew)
      = eventFilter reg (Ev.updateEvent metaOld metaNew2) ∧
    (eventFilter reg (Ev.updateEvent metaOld metaNew) = true
      ↔ (lookupDef reg metaOld.name).isSome = true) := by
  constructor
  · rfl
  · simp only [eventFilter]
    split <;> simp_all

theorem update_filter_depends_only_on_old_name_witness :
    eventFilter [("a", (⟨"a", none, 7⟩ : CatalogSource Nat))]
        (Ev.updateEvent ⟨"a", none, 1⟩ ⟨"a", none, 2⟩)
      = eventFilter [("a", (⟨"a", none, 7⟩ : CatalogSource Nat))]
        (Ev.updateEvent ⟨"a", none, 1⟩ ⟨"a", none, 3⟩) ∧
    (eventFilter [("a", (⟨"a", none, 7⟩ : CatalogSource Nat))]
        (Ev.updateEvent ⟨"a", none, 1⟩ ⟨"a", none, 2⟩) = true
      ↔ (lookupDef [("a", (⟨"a", none, 7⟩ : CatalogSource Nat))] "a").isSome = true) :=
  update_filter_depends_only_on_old_name
    [("a", ⟨"a", none, 7⟩)] ⟨"a", none, 1⟩ ⟨"a", none, 2⟩ ⟨"a", none, 3⟩

/-- C8 counterexample: with an empty registry (so the requested name "x" is
not managed), a fetched object whose spec differs from Go's zero spec makes
`Reconcile` issue a delete and return a 5-second requeue — not "no store
mutation and a terminal result" as the claim states.  The code never checks
registry membership; the absent key yields the zero-value definition. -/
theorem unmanaged_name_claim_fails :
    ¬ ((Reconcile ([] : Registry Nat) 0 (fun _ => false)
          (GetResult.found ⟨"x", none, 1⟩) false false ⟨"ns", "x"⟩).actions = [] ∧
       (Reconcile ([] : Registry Nat) 0 (fun _ => false)
          (GetResult.found ⟨"x", none, 1⟩) false false ⟨"ns", "x"⟩).result
         = ⟨false, 0⟩) := by
  decide

/-- C8 amended: `Reconcile` does no registry-membership check; for a request
whose name is absent from the registry it proceeds with Go's zero-value
definition as the desired state, so it can mutate the store: a fetched object
without deletion timestamp whose spec differs from the zero spec is deleted
with a 5-second requeue, and a not-found fetch with the known-present flag
false for the empty name triggers a create of the zero-value definition with
an empty result. -/
theorem unmanaged_name_uses_zero_definition {σ : Type} [DecidableEq σ]
    (reg : Registry σ) (zeroSpec : σ) (hub : String → Bool)
    (createFails deleteFails : Bool) (request : Request)
    (habs : lookupDef reg request.name = none) :
    (∀ inst : CatalogSource σ, inst.deletionTimestamp = none →
        inst.spec ≠ zeroSpec →
        Reconcile reg zeroSpec hub (GetResult.found inst)
            createFails deleteFails request
          = { actions := [Action.delete inst]
              result := ⟨true, 5⟩
              returnedError := none }) ∧
    (hub "" = false →
        Reconcile reg zeroSpec hub GetResult.notFound
            createFails deleteFails request
          = { actions := [Action.create (zeroCatalogSource zeroSpec)]
              result := ⟨false, 0⟩
              returnedError := none }) := by
  constructor
  · intro inst hts hne
    simp [Reconcile, habs, hts, AreCatsrcSpecsEqual, zeroCatalogSource,
      Ne.symm hne]
  · intro hhub
    simp [Reconcile, habs, hhub, zeroCatalogSource, createNewCatsrcInstance]

theorem unmanaged_name_uses_zero_definition_witness :
    lookupDef ([] : Registry Nat) "x" = none ∧
    Reconcile ([] : Registry Nat) 0 (fun _ => false)
        (GetResult.found ⟨"x", none, 1⟩) false false ⟨"ns", "x"⟩
      = { actions := [Action.delete ⟨"x", none, 1⟩]
          result := ⟨true, 5⟩
          returnedError := none } :=
  ⟨by decide,
    (unmanaged_name_uses_zero_definition [] 0 (fun _ => false)
        false false ⟨"ns", "x"⟩ (by decide)).1 ⟨"x", none, 1⟩ rfl (by decide)⟩

/-- C5: the claim says `OnStoppedLeading` synchronously stops the
reconciliation engine before returning.  In `main` the callback body only
logs a warning — it neither cancels `leaderCtx` nor stops the manager — and
`mgr.Start` is bound to the signals context's stop channel, not to
`leaderCtx`, so losing leadership does not stop reconciliation.  The
`leaderCtx`/`leaderCancel` pair exists but is never wired in, which marks the
spec as the intent and the code as the slip. -/
theorem onStoppedLeading_does_not_stop_manager :
    onStoppedLeadingBody = [CallbackStep.logWarnLeaderLost] ∧
    onStoppedLeadingBody.contains CallbackStep.stopManager = false ∧
    onStoppedLeadingBody.contains CallbackStep.cancelLeaderContext = false ∧
    mgrStartStopChannel ≠ StopChannel.leaderContext := by
  decide

end Marketplace
